import Mathlib

/-!
Verification of the process-supervision component of SublimeSBT
(`sbtrunner.py`): a shallow embedding of the `SbtRunner`, `SbtProcess`,
`SbtUnixProcess` and `SbtWindowsProcess` classes, together with proofs of
the specified properties.

OS-level side effects (signals, subprocess calls) are embedded as explicit
action values; the stateful supervisor is embedded as functions from state
to state paired with the list of observable events (handler invocations,
error dialogs, thread starts) produced on that call.
-/

/-! ## Characters that are awkward to write literally -/

/-- The single-quote character. -/
def squote : Char := Char.ofNat 39

/-- The double-quote character. -/
def dquote : Char := Char.ofNat 34

/-- The backslash character. -/
def bslash : Char := Char.ofNat 92

/-- The backtick character. -/
def btick : Char := Char.ofNat 96

/-! ## `pipes.quote` (Python standard library, called from
`SbtUnixProcess._shell_cmdline`) -/

/-- The characters `pipes.quote` considers safe (its `_safechars`):
ASCII letters, digits, and `@%_-+=:,./`. -/
def pipes.safechars : List Char :=
  "abcdefghijklmnopqrstuvwxyzABCDEFGHIJKLMNOPQRSTUVWXYZ0123456789@%_-+=:,./".data

/-- One step of `file.replace(squote, squote dquote squote dquote squote)`:
how `pipes.quote` escapes a single character inside its single-quoted
wrapping. -/
def pipes.escQuote (c : Char) : List Char :=
  if c = squote then [squote, dquote, squote, dquote, squote] else [c]

/-- The body of the single-quoted form produced by `pipes.quote`. -/
def pipes.escBody (cs : List Char) : List Char := cs.flatMap pipes.escQuote

/-- `pipes.quote` from the Python standard library: return the string
unchanged when it is non-empty and made only of safe characters; return two
single quotes for the empty string; otherwise wrap in single quotes,
escaping each embedded single quote as quote-dquote-quote-dquote-quote. -/
def pipes.quote (s : String) : String :=
  if s = "" then String.mk [squote, squote]
  else if s.data.all (fun c => c ∈ pipes.safechars) then s
  else String.mk (squote :: pipes.escBody s.data ++ [squote])

/-- Python `' '.join`: concatenate with a single blank between elements. -/
def joinSp : List String → String
  | [] => ""
  | [x] => x
  | x :: xs => x ++ " " ++ joinSp xs

/-! ## `SbtUnixProcess._shell_cmdline` -/

/-- Python `s.endswith(t)`: `t` is a suffix of `s`. -/
def endswith (s t : String) : Bool := t.data.isSuffixOf s.data

/-- `SbtUnixProcess._shell_cmdline`: resolve the shell from the `SHELL`
environment variable (default `/bin/bash`), pick `-ic` for csh-like shells
and `-lic` otherwise, and return the three-element command line
`[shell, opts, joined-quoted-string]`. `envSHELL` is the value of
`os.environ.get('SHELL')`. -/
def SbtUnixProcess.shell_cmdline (envSHELL : Option String)
    (cmdline : List String) : List String :=
  let shell := envSHELL.getD "/bin/bash"
  let opts := if endswith shell "csh" then "-ic" else "-lic"
  let cmd := joinSp (cmdline.map pipes.quote)
  [shell, opts, cmd]

/-! ## Platform termination actions (`SbtUnixProcess` / `SbtWindowsProcess`) -/

/-- POSIX signals used by the Unix variant. -/
inductive UnixSignal
  | SIGTERM
  | SIGKILL
deriving DecidableEq

/-- A Windows `STARTUPINFO` record (only the fields the code sets). -/
structure StartupInfo where
  dwFlags : Nat
  wShowWindow : Nat
deriving DecidableEq

/-- `subprocess.STARTF_USESHOWWINDOW`. -/
def STARTF_USESHOWWINDOW : Nat := 1

/-- `subprocess.SW_HIDE`. -/
def SW_HIDE : Nat := 0

/-- The OS-level effects the termination methods can perform. -/
inductive OsAction
  | killpg (pgid : Nat) (sig : UnixSignal)
  | callWithStartupInfo (cmdline : List String) (si : StartupInfo)
deriving DecidableEq

/-- `SbtUnixProcess.terminate`: `os.killpg(self._proc.pid, signal.SIGTERM)`. -/
def SbtUnixProcess.terminate (pid : Nat) : OsAction :=
  OsAction.killpg pid UnixSignal.SIGTERM

/-- `SbtUnixProcess.kill`: `os.killpg(self._proc.pid, signal.SIGKILL)`. -/
def SbtUnixProcess.kill (pid : Nat) : OsAction :=
  OsAction.killpg pid UnixSignal.SIGKILL

/-- `SbtWindowsProcess.kill`: `subprocess.call` of
`taskkill /T /F /PID pid` with a `STARTUPINFO` hiding the console window. -/
def SbtWindowsProcess.kill (pid : Nat) : OsAction :=
  OsAction.callWithStartupInfo ["taskkill", "/T", "/F", "/PID", toString pid]
    { dwFlags := STARTF_USESHOWWINDOW, wShowWindow := SW_HIDE }

/-- `SbtWindowsProcess.terminate`: `self.kill()`. -/
def SbtWindowsProcess.terminate (pid : Nat) : OsAction :=
  SbtWindowsProcess.kill pid

/-! ## `SbtProcess._monitor_output` -/

/-- `SbtProcess._monitor_output`, driven by the trace of values that
successive `os.read(pipe.fileno(), 2 ** 15).decode()` calls return: deliver
each non-empty chunk to the handler; on the first empty chunk close the
pipe and stop. Result: the chunks passed to the handler, in order, and
whether the pipe was closed. -/
def SbtProcess.monitor_output : List String → List String × Bool
  | [] => ([], false)
  | c :: rest =>
    if c = "" then ([], true)
    else
      let r := SbtProcess.monitor_output rest
      (c :: r.1, r.2)

/-! ## `SbtWindowsProcess._sbt_env` / `_sbt_opts` -/

/-- Python `dict` lookup on an association list built by `dict(l)`:
the last binding of a key wins. -/
def dictGet (env : List (String × String)) (k : String) : Option String :=
  (env.reverse.find? (fun e => e.1 = k)).map (fun e => e.2)

/-- `SbtWindowsProcess.SBT_OPTS`: the jline unsupported-terminal flag. -/
def SbtWindowsProcess.SBT_OPTS : String :=
  "-Djline.terminal=jline.UnsupportedTerminal"

/-- `SbtWindowsProcess._sbt_opts`: the existing `SBT_OPTS` value with the
flag appended, or just the flag when the variable is absent. `env` is
`os.environ` as an association list. -/
def SbtWindowsProcess.sbt_opts (env : List (String × String)) : String :=
  match dictGet env "SBT_OPTS" with
  | none => SbtWindowsProcess.SBT_OPTS
  | some v => v ++ " " ++ SbtWindowsProcess.SBT_OPTS

/-- `SbtWindowsProcess._sbt_env`:
`dict(list(os.environ.items()) + [[SBT_OPTS, _sbt_opts()]])`. -/
def SbtWindowsProcess.sbt_env (env : List (String × String)) :
    List (String × String) :=
  env ++ [("SBT_OPTS", SbtWindowsProcess.sbt_opts env)]

/-! ## Byte encoding (Python `str.encode()`, UTF-8) -/

/-- UTF-8 encoding of one character, as Python `str.encode()` produces. -/
def utf8Bytes (c : Char) : List Nat :=
  let n := c.toNat
  if n < 128 then [n]
  else if n < 2048 then
    [192 + n / 64, 128 + n % 64]
  else if n < 65536 then
    [224 + n / 4096, 128 + (n / 64) % 64, 128 + n % 64]
  else
    [240 + n / 262144, 128 + (n / 4096) % 64, 128 + (n / 64) % 64, 128 + n % 64]

/-- Python `input.encode()`: UTF-8 bytes of the string. -/
def encode (s : String) : List Nat := s.data.flatMap utf8Bytes

/-! ## Pipes, processes, and the supervisor state -/

/-- Possible failures when writing to the process's stdin pipe. -/
inductive WriteErr
  | closedStream
  | brokenPipe
deriving DecidableEq

/-- The state of the stdin pipe of a spawned process: whether our end was
closed, whether the reading end is gone (the process exited), the bytes
written but not yet flushed, and the bytes flushed to the process. -/
structure PipeState where
  closed : Bool
  broken : Bool
  pending : List Nat
  flushed : List Nat
deriving DecidableEq

/-- `file.write(bytes)` on the stdin pipe: fails when the file is closed
(`ValueError`) or the reader is gone (`BrokenPipeError`); otherwise the
bytes join the unflushed buffer. -/
def pipeWrite (bs : List Nat) (p : PipeState) : Except WriteErr PipeState :=
  if p.closed then Except.error WriteErr.closedStream
  else if p.broken then Except.error WriteErr.brokenPipe
  else Except.ok { p with pending := p.pending ++ bs }

/-- `file.flush()` on the stdin pipe: fails when closed or broken;
otherwise moves the unflushed bytes to the process. -/
def pipeFlush (p : PipeState) : Except WriteErr PipeState :=
  if p.closed then Except.error WriteErr.closedStream
  else if p.broken then Except.error WriteErr.brokenPipe
  else Except.ok { p with pending := [], flushed := p.flushed ++ p.pending }

/-- `SbtProcess.send`: `self._proc.stdin.write(input.encode())` then
`self._proc.stdin.flush()`; no guard, errors propagate. -/
def SbtProcess.send (input : String) (p : PipeState) :
    Except WriteErr PipeState :=
  (pipeWrite (encode input) p).bind pipeFlush

/-- A spawned `subprocess.Popen` handle, with the fields the supervisor
reads: `returncode` (set once the process has been reaped), the stdin pipe,
and whether stdout/stderr pipes are present. -/
structure Proc where
  returncode : Option Int
  stdin : PipeState
  hasStdout : Bool
  hasStderr : Bool
deriving DecidableEq

/-- `SbtProcess.is_running`: `self._proc.returncode is None`. -/
def SbtProcess.is_running (p : Proc) : Bool := p.returncode = none

/-- The background threads `SbtProcess.__init__` starts. -/
inductive ThreadKind
  | stdoutReader
  | stderrReader
  | exitWaiter
deriving DecidableEq

/-- Observable events: handler invocations, thread starts, error dialogs. -/
inductive Ev
  | onStart
  | onStop
  | onStdout (text : String)
  | onStderr (text : String)
  | threadStart (k : ThreadKind)
  | errorDialog (msg : String)
deriving DecidableEq

/-- Whether an event is an `on_start` invocation. -/
def isOnStart : Ev → Bool
  | Ev.onStart => true
  | _ => false

/-- Whether an event is one of the asynchronous handler callbacks
(`on_stdout`, `on_stderr`, `on_stop`). -/
def isCallback : Ev → Bool
  | Ev.onStdout _ => true
  | Ev.onStderr _ => true
  | Ev.onStop => true
  | _ => false

/-- Number of `on_start` invocations in an event list. -/
def countOnStart (evs : List Ev) : Nat := (evs.filter isOnStart).length

/-- The thread-start events of `SbtProcess.__init__`, in program order:
stdout reader if a stdout pipe is present, stderr reader if a stderr pipe
is present, then the exit waiter. -/
def threadStartList (hasStdout hasStderr : Bool) : List Ev :=
  (if hasStdout then [Ev.threadStart ThreadKind.stdoutReader] else [])
    ++ (if hasStderr then [Ev.threadStart ThreadKind.stderrReader] else [])
    ++ [Ev.threadStart ThreadKind.exitWaiter]

/-- The straight-line event trace of `SbtProcess.__init__`: call
`on_start`, then start the reader and waiter threads. -/
def initEvents (hasStdout hasStderr : Bool) : List Ev :=
  Ev.onStart :: threadStartList hasStdout hasStderr

/-- A whole execution trace: the synchronous constructor events followed by
whatever the background threads later produce. -/
def execTrace (hasStdout hasStderr : Bool) (async : List Ev) : List Ev :=
  initEvents hasStdout hasStderr ++ async

/-- `SbtRunner` state: the nullable managed-process reference. -/
structure RunnerState where
  _proc : Option Proc
deriving DecidableEq

/-- `SbtRunner.is_sbt_running`:
`(self._proc is not None) and self._proc.is_running()`. -/
def SbtRunner.is_sbt_running (s : RunnerState) : Bool :=
  match s._proc with
  | none => false
  | some p => SbtProcess.is_running p

/-- Python truthiness of the value `self.project_root()` returns
(a path string or `None`): `None` and the empty string are falsy. -/
def truthy : Option String → Bool
  | none => false
  | some s => s ≠ ""

/-- `SbtRunner.sbt_command`: the project's base command line with the
optional extra command appended. -/
def SbtRunner.sbt_command (base : List String) (command : Option String) :
    List String :=
  base ++ command.toList

/-- The message `SbtRunner._try_start_sbt_proc` shows on `OSError`:
`'Unable to find "%s".\n\nYou may need to specify the full path to your
sbt command.' % cmdline[0]`. -/
def errMsg (cmdline : List String) : String :=
  "Unable to find " ++ String.singleton dquote ++ cmdline.headD ""
    ++ String.singleton dquote
    ++ ".\n\nYou may need to specify the full path to your sbt command."

/-- `SbtRunner.start_sbt`: when the project root is truthy and no held
process is running, attempt to spawn (`spawn` is the outcome of
`Popen`) and store the result in `self._proc`; on `OSError` show the error
dialog and store `None`; otherwise do nothing. Returns the new state and
the events produced. -/
def SbtRunner.start_sbt (root : Option String) (base : List String)
    (command : Option String) (spawn : Except Unit Proc) (s : RunnerState) :
    RunnerState × List Ev :=
  if truthy root && !SbtRunner.is_sbt_running s then
    match spawn with
    | Except.ok p =>
      ({ _proc := some p }, initEvents p.hasStdout p.hasStderr)
    | Except.error _ =>
      ({ _proc := none },
       [Ev.errorDialog (errMsg (SbtRunner.sbt_command base command))])
  else (s, [])

/-- `SbtRunner.send_to_sbt`: a no-op unless a process is running, otherwise
delegates to `SbtProcess.send` on the held process's stdin; errors from the
delegate propagate. -/
def SbtRunner.send_to_sbt (input : String) (s : RunnerState) :
    Except WriteErr RunnerState :=
  if SbtRunner.is_sbt_running s then
    match s._proc with
    | none => Except.ok s
    | some p =>
      (SbtProcess.send input p.stdin).map
        (fun st => { _proc := some { p with stdin := st } })
  else Except.ok s

/-! ## A POSIX shell word splitter

Modelled from the POSIX shell word-splitting and quote-removal rules (no
expansions), to state the quoting round-trip of
`SbtUnixProcess._shell_cmdline`. -/

/-- Lexer mode: outside quotes, inside single quotes, inside double quotes,
or just after an unquoted / double-quoted backslash. -/
inductive ShMode
  | norm
  | single
  | double
  | normEsc
  | doubleEsc
deriving DecidableEq

/-- Default field separators: blank, tab, newline. -/
def isIFS (c : Char) : Bool := c = ' ' || c = '\t' || c = '\n'

/-- One-character-at-a-time POSIX field splitting with quote removal.
`acc` is the reversed current word, `started` whether a current word
exists (a quoted empty string starts a word). `none` on an unterminated
quote or a trailing backslash. -/
def shLex : List Char → ShMode → List Char → Bool → Option (List String)
  | [], ShMode.norm, acc, started =>
    some (if started then [String.mk acc.reverse] else [])
  | [], _, _, _ => none
  | c :: rest, ShMode.norm, acc, started =>
    if isIFS c then
      (shLex rest ShMode.norm [] false).map
        (fun ws => if started then String.mk acc.reverse :: ws else ws)
    else if c = squote then shLex rest ShMode.single acc true
    else if c = dquote then shLex rest ShMode.double acc true
    else if c = bslash then shLex rest ShMode.normEsc acc started
    else shLex rest ShMode.norm (c :: acc) true
  | c :: rest, ShMode.normEsc, acc, started =>
    if c = '\n' then shLex rest ShMode.norm acc started
    else shLex rest ShMode.norm (c :: acc) true
  | c :: rest, ShMode.single, acc, started =>
    if c = squote then shLex rest ShMode.norm acc started
    else shLex rest ShMode.single (c :: acc) started
  | c :: rest, ShMode.double, acc, started =>
    if c = dquote then shLex rest ShMode.norm acc started
    else if c = bslash then shLex rest ShMode.doubleEsc acc started
    else shLex rest ShMode.double (c :: acc) started
  | c :: rest, ShMode.doubleEsc, acc, started =>
    if c = dquote ∨ c = bslash ∨ c = '$' ∨ c = btick then
      shLex rest ShMode.double (c :: acc) started
    else if c = '\n' then shLex rest ShMode.double acc started
    else shLex rest ShMode.double (bslash :: c :: acc) started

/-- POSIX word splitting of a whole command string. -/
def posixSplit (s : String) : Option (List String) :=
  shLex s.data ShMode.norm [] false

/-! ## Helper lemmas for the reader loop -/

theorem monitor_output_eof (chunks : List String)
    (h : ∀ c ∈ chunks, c ≠ "") :
    SbtProcess.monitor_output (chunks ++ [""]) = (chunks, true) := by
  induction chunks with
  | nil => simp [SbtProcess.monitor_output]
  | cons c rest ih =>
    have hc : c ≠ "" := h c (by simp)
    have ih' := ih (fun x hx => h x (by simp [hx]))
    simp [SbtProcess.monitor_output, hc, ih']

theorem monitor_output_ne (trace : List String) :
    ∀ c ∈ (SbtProcess.monitor_output trace).1, c ≠ "" := by
  induction trace with
  | nil => simp [SbtProcess.monitor_output]
  | cons c rest ih =>
    intro x hx
    by_cases hc : c = ""
    · simp [SbtProcess.monitor_output, hc] at hx
    · simp only [SbtProcess.monitor_output, if_neg hc, List.mem_cons] at hx
      rcases hx with hx | hx
      · exact hx ▸ hc
      · exact ih x hx

/-! ## Claim theorems -/

/-- C1: On the POSIX variant, `terminate` sends `SIGTERM` to the spawned
process's process group and `kill` sends `SIGKILL` to that group; on the
Windows variant, `terminate` and `kill` are identical, invoking
`taskkill /T /F /PID pid` with the utility's console window hidden. -/
theorem C1_termination_group_tree (pid : Nat) :
    SbtUnixProcess.terminate pid = OsAction.killpg pid UnixSignal.SIGTERM ∧
    SbtUnixProcess.kill pid = OsAction.killpg pid UnixSignal.SIGKILL ∧
    SbtWindowsProcess.terminate pid = SbtWindowsProcess.kill pid ∧
    SbtWindowsProcess.kill pid =
      OsAction.callWithStartupInfo
        ["taskkill", "/T", "/F", "/PID", toString pid]
        { dwFlags := STARTF_USESHOWWINDOW, wShowWindow := SW_HIDE } :=
  ⟨rfl, rfl, rfl, rfl⟩

/-- C3: The reader loop delivers exactly the non-empty chunks read before
end-of-file, in order, then closes the stream; handlers are never invoked
with an empty chunk, and the concatenation of delivered chunks equals the
concatenation of the bytes read. -/
theorem C3_reader_loop (chunks : List String)
    (hne : ∀ c ∈ chunks, c ≠ "")
    (hsz : ∀ c ∈ chunks, c.utf8ByteSize ≤ 2 ^ 15) :
    SbtProcess.monitor_output (chunks ++ [""]) = (chunks, true) ∧
    String.join (SbtProcess.monitor_output (chunks ++ [""])).1 =
      String.join chunks ∧
    ∀ trace : List String, ∀ c ∈ (SbtProcess.monitor_output trace).1,
      c ≠ "" := by
  refine ⟨monitor_output_eof chunks hne, ?_, fun t => monitor_output_ne t⟩
  rw [monitor_output_eof chunks hne]

/-- Witness for C3 at a concrete read trace. -/
theorem C3_reader_loop_witness :
    SbtProcess.monitor_output (["[info] ok", "> "] ++ [""]) =
      (["[info] ok", "> "], true) :=
  (C3_reader_loop ["[info] ok", "> "] (by decide) (by decide)).1

/-- C7: The POSIX shell is taken from the `SHELL` environment variable with
default `/bin/bash`; the flag string is `-ic` when the shell path ends in
`csh` and `-lic` otherwise; and the spawned command line is exactly
`[shell, flags, joined-quoted-string]`. -/
theorem C7_shell_resolution (envSHELL : Option String)
    (cmdline : List String) :
    SbtUnixProcess.shell_cmdline envSHELL cmdline =
      [envSHELL.getD "/bin/bash",
       if endswith (envSHELL.getD "/bin/bash") "csh" then "-ic" else "-lic",
       joinSp (cmdline.map pipes.quote)] ∧
    SbtUnixProcess.shell_cmdline none cmdline =
      ["/bin/bash", "-lic", joinSp (cmdline.map pipes.quote)] ∧
    SbtUnixProcess.shell_cmdline (some "/bin/tcsh") cmdline =
      ["/bin/tcsh", "-ic", joinSp (cmdline.map pipes.quote)] := by
  refine ⟨rfl, ?_, ?_⟩
  · have h : endswith "/bin/bash" "csh" = false := by decide
    simp [SbtUnixProcess.shell_cmdline, h]
  · have h : endswith "/bin/tcsh" "csh" = true := by decide
    simp [SbtUnixProcess.shell_cmdline, h]

/-- C8: The Windows environment equals the current environment except that
`SBT_OPTS` maps to the jline flag when absent, and to the existing value
followed by a space and the flag when present; all other keys are
unchanged. -/
theorem C8_windows_env (env : List (String × String)) :
    dictGet (SbtWindowsProcess.sbt_env env) "SBT_OPTS" =
      some (SbtWindowsProcess.sbt_opts env) ∧
    (dictGet env "SBT_OPTS" = none →
      SbtWindowsProcess.sbt_opts env = SbtWindowsProcess.SBT_OPTS) ∧
    (∀ v, dictGet env "SBT_OPTS" = some v →
      SbtWindowsProcess.sbt_opts env =
        v ++ " " ++ SbtWindowsProcess.SBT_OPTS) ∧
    (∀ k, k ≠ "SBT_OPTS" →
      dictGet (SbtWindowsProcess.sbt_env env) k = dictGet env k) := by
  refine ⟨?_, ?_, ?_, ?_⟩
  · simp [dictGet, SbtWindowsProcess.sbt_env, List.find?]
  · intro h
    simp [SbtWindowsProcess.sbt_opts, h]
  · intro v h
    simp [SbtWindowsProcess.sbt_opts, h]
  · intro k hk
    simp [dictGet, SbtWindowsProcess.sbt_env, List.find?, hk, Ne.symm hk]

/-- Witness for C8 at a concrete environment and key. -/
theorem C8_windows_env_witness :
    dictGet
      (SbtWindowsProcess.sbt_env [("PATH", "/bin"), ("SBT_OPTS", "-Xmx1g")])
      "PATH" = some "/bin" :=
  (C8_windows_env [("PATH", "/bin"), ("SBT_OPTS", "-Xmx1g")]).2.2.2 "PATH"
    (by decide)

/-! ## Helper lemmas for the supervisor -/

theorem countOnStart_initEvents (hasStdout hasStderr : Bool) :
    countOnStart (initEvents hasStdout hasStderr) = 1 := by
  cases hasStdout <;> cases hasStderr <;> rfl

theorem onStart_not_mem_threadStartList (hasStdout hasStderr : Bool) :
    Ev.onStart ∉ threadStartList hasStdout hasStderr := by
  cases hasStdout <;> cases hasStderr <;> decide

/-- C2: `start_sbt` spawns only when the project root is truthy and no held
process is running, and is otherwise a silent no-op leaving the state
unchanged; two successive starts without an intervening exit invoke
`on_start` exactly once and leave exactly one live process. -/
theorem C2_start_guard_idempotent :
    (∀ (root : Option String) (base : List String) (command : Option String)
       (spawn : Except Unit Proc) (s : RunnerState),
       (truthy root && !SbtRunner.is_sbt_running s) = false →
       SbtRunner.start_sbt root base command spawn s = (s, [])) ∧
    (∀ (root root2 : Option String) (base base2 : List String)
       (command command2 : Option String) (p : Proc)
       (spawn2 : Except Unit Proc) (s0 : RunnerState),
       truthy root = true → SbtRunner.is_sbt_running s0 = false →
       p.returncode = none →
       countOnStart
         ((SbtRunner.start_sbt root base command (Except.ok p) s0).2
           ++ (SbtRunner.start_sbt root2 base2 command2 spawn2
                 (SbtRunner.start_sbt root base command (Except.ok p) s0).1).2)
         = 1 ∧
       (SbtRunner.start_sbt root2 base2 command2 spawn2
          (SbtRunner.start_sbt root base command (Except.ok p) s0).1).1._proc
         = some p) := by
  constructor
  · intro root base command spawn s h
    simp [SbtRunner.start_sbt, h]
  · intro root root2 base base2 command command2 p spawn2 s0 h1 h2 h3
    have hs1 : SbtRunner.start_sbt root base command (Except.ok p) s0 =
        ({ _proc := some p }, initEvents p.hasStdout p.hasStderr) := by
      simp [SbtRunner.start_sbt, h1, h2]
    have hrun : SbtRunner.is_sbt_running { _proc := some p } = true := by
      simp [SbtRunner.is_sbt_running, SbtProcess.is_running, h3]
    have hs2 : SbtRunner.start_sbt root2 base2 command2 spawn2
        { _proc := some p } = ({ _proc := some p }, []) := by
      simp [SbtRunner.start_sbt, hrun]
    rw [hs1]
    simp only []
    rw [hs2]
    exact ⟨by simp only [List.append_nil]
              exact countOnStart_initEvents p.hasStdout p.hasStderr, rfl⟩

/-- Witness for C2 at a concrete root, command line, process and state. -/
theorem C2_start_guard_idempotent_witness :
    countOnStart
      ((SbtRunner.start_sbt (some "/proj") ["sbt"] none
          (Except.ok ⟨none, ⟨false, false, [], []⟩, true, true⟩) ⟨none⟩).2
        ++ (SbtRunner.start_sbt (some "/proj") ["sbt"] none
              (Except.ok ⟨none, ⟨false, false, [], []⟩, true, true⟩)
              (SbtRunner.start_sbt (some "/proj") ["sbt"] none
                (Except.ok ⟨none, ⟨false, false, [], []⟩, true, true⟩)
                ⟨none⟩).1).2) = 1 :=
  (C2_start_guard_idempotent.2 (some "/proj") (some "/proj") ["sbt"] ["sbt"]
    none none ⟨none, ⟨false, false, [], []⟩, true, true⟩
    (Except.ok ⟨none, ⟨false, false, [], []⟩, true, true⟩) ⟨none⟩
    (by decide) (by decide) (by decide)).1

/-- C5: On a spawn failure the supervisor shows exactly one error dialog,
whose message names the first element of the built command line and
suggests supplying a full path; afterward no process is held and
`is_sbt_running` is false. -/
theorem C5_spawn_error_dialog (root : Option String) (base : List String)
    (command : Option String) (s : RunnerState)
    (h1 : truthy root = true) (h2 : SbtRunner.is_sbt_running s = false)
    (h3 : base ≠ []) :
    (SbtRunner.start_sbt root base command (Except.error ()) s).2 =
      [Ev.errorDialog (errMsg (SbtRunner.sbt_command base command))] ∧
    errMsg (SbtRunner.sbt_command base command) =
      "Unable to find " ++ String.singleton dquote
        ++ (SbtRunner.sbt_command base command).headD ""
        ++ String.singleton dquote
        ++ ".\n\nYou may need to specify the full path to your sbt command." ∧
    (SbtRunner.sbt_command base command).headD "" = base.headD "" ∧
    (SbtRunner.start_sbt root base command (Except.error ()) s).1._proc
      = none ∧
    SbtRunner.is_sbt_running
      (SbtRunner.start_sbt root base command (Except.error ()) s).1 = false := by
  have hs : SbtRunner.start_sbt root base command (Except.error ()) s =
      ({ _proc := none },
       [Ev.errorDialog (errMsg (SbtRunner.sbt_command base command))]) := by
    simp [SbtRunner.start_sbt, h1, h2]
  refine ⟨by rw [hs], rfl, ?_, by rw [hs], by rw [hs]; rfl⟩
  cases base with
  | nil => exact absurd rfl h3
  | cons a l => rfl

/-- Witness for C5 at a concrete state with an unresolvable program. -/
theorem C5_spawn_error_dialog_witness :
    (SbtRunner.start_sbt (some "/proj") ["sbt"] (some "compile")
        (Except.error ()) ⟨none⟩).2 =
      [Ev.errorDialog (errMsg (SbtRunner.sbt_command ["sbt"]
        (some "compile")))] :=
  (C5_spawn_error_dialog (some "/proj") ["sbt"] (some "compile") ⟨none⟩
    (by decide) (by decide) (by decide)).1

/-- C6: In every execution trace, `on_start` is the very first event: it
precedes the starting of the stdout-reader, stderr-reader and exit-waiter
threads, and hence every `on_stdout`, `on_stderr` and `on_stop` callback
those threads later produce. -/
theorem C6_on_start_first (hasStdout hasStderr : Bool) (async : List Ev)
    (h : ∀ e ∈ async, isCallback e = true) :
    execTrace hasStdout hasStderr async =
      Ev.onStart :: (threadStartList hasStdout hasStderr ++ async) ∧
    ∀ e ∈ threadStartList hasStdout hasStderr ++ async, e ≠ Ev.onStart := by
  refine ⟨rfl, ?_⟩
  intro e he heq
  subst heq
  rcases List.mem_append.mp he with hm | hm
  · exact onStart_not_mem_threadStartList hasStdout hasStderr hm
  · simpa [isCallback] using h _ hm

/-- Witness for C6 at a concrete trace. -/
theorem C6_on_start_first_witness :
    execTrace true true [Ev.onStdout "x", Ev.onStop] =
      Ev.onStart :: (threadStartList true true
        ++ [Ev.onStdout "x", Ev.onStop]) :=
  (C6_on_start_first true true [Ev.onStdout "x", Ev.onStop] (by decide)).1

/-- C9: `SbtProcess.send` encodes, writes and flushes with no running-state
guard, erroring exactly when the pipe is closed or broken; the supervisor's
`send_to_sbt` is a silent no-op unless a process is running and otherwise
delegates to `SbtProcess.send`. -/
theorem C9_send_semantics (input : String) :
    (∀ p : PipeState, p.closed = true →
       SbtProcess.send input p = Except.error WriteErr.closedStream) ∧
    (∀ p : PipeState, p.closed = false → p.broken = true →
       SbtProcess.send input p = Except.error WriteErr.brokenPipe) ∧
    (∀ p : PipeState, p.closed = false → p.broken = false →
       SbtProcess.send input p =
         Except.ok { closed := false, broken := false, pending := [],
                     flushed := p.flushed ++ (p.pending ++ encode input) }) ∧
    (∀ s : RunnerState, SbtRunner.is_sbt_running s = false →
       SbtRunner.send_to_sbt input s = Except.ok s) ∧
    (∀ (s : RunnerState) (p : Proc), s._proc = some p →
       SbtRunner.is_sbt_running s = true →
       SbtRunner.send_to_sbt input s =
         (SbtProcess.send input p.stdin).map
           (fun st => { _proc := some { p with stdin := st } })) := by
  refine ⟨?_, ?_, ?_, ?_, ?_⟩
  · intro p h
    simp [SbtProcess.send, pipeWrite, h, Except.bind]
  · intro p h1 h2
    simp [SbtProcess.send, pipeWrite, pipeFlush, h1, h2, Except.bind]
  · intro p h1 h2
    simp [SbtProcess.send, pipeWrite, pipeFlush, h1, h2, Except.bind]
  · intro s h
    simp [SbtRunner.send_to_sbt, h]
  · intro s p hp h
    cases s with
    | mk op =>
      cases hp
      simp [SbtRunner.send_to_sbt, h]

/-- Witness for C9: sending on a closed pipe errors. -/
theorem C9_send_semantics_witness :
    SbtProcess.send "exit" ⟨true, false, [], []⟩ =
      Except.error WriteErr.closedStream :=
  (C9_send_semantics "exit").1 ⟨true, false, [], []⟩ (by decide)

/-- C10: When process creation fails, no handler is ever invoked (the only
event is the error dialog), the held process reference becomes `None`, and
a subsequent successful start is permitted and fires `on_start` once. -/
theorem C10_spawn_failure_atomic (root : Option String) (base : List String)
    (command : Option String) (s : RunnerState)
    (h1 : truthy root = true) (h2 : SbtRunner.is_sbt_running s = false) :
    (SbtRunner.start_sbt root base command (Except.error ()) s).1._proc
      = none ∧
    (∀ e ∈ (SbtRunner.start_sbt root base command (Except.error ()) s).2,
       ∃ m, e = Ev.errorDialog m) ∧
    SbtRunner.is_sbt_running
      (SbtRunner.start_sbt root base command (Except.error ()) s).1 = false ∧
    (∀ (root2 : Option String) (base2 : List String)
       (command2 : Option String) (p2 : Proc), truthy root2 = true →
       countOnStart
         (SbtRunner.start_sbt root2 base2 command2 (Except.ok p2)
           (SbtRunner.start_sbt root base command (Except.error ()) s).1).2
         = 1) := by
  have hs : SbtRunner.start_sbt root base command (Except.error ()) s =
      ({ _proc := none },
       [Ev.errorDialog (errMsg (SbtRunner.sbt_command base command))]) := by
    simp [SbtRunner.start_sbt, h1, h2]
  refine ⟨by rw [hs], ?_, by rw [hs]; rfl, ?_⟩
  · rw [hs]
    intro e he
    simp at he
    exact ⟨_, he⟩
  · intro root2 base2 command2 p2 hr2
    rw [hs]
    have : SbtRunner.is_sbt_running { _proc := none } = false := rfl
    simp [SbtRunner.start_sbt, hr2, this, countOnStart_initEvents]

/-- Witness for C10 at a concrete failing spawn. -/
theorem C10_spawn_failure_atomic_witness :
    (SbtRunner.start_sbt (some "/proj") ["sbt"] none (Except.error ())
        ⟨none⟩).1._proc = none :=
  (C10_spawn_failure_atomic (some "/proj") ["sbt"] none ⟨none⟩
    (by decide) (by decide)).1

/-! ## Helper lemmas for the quoting round-trip -/

theorem isIFS_squote : isIFS squote = false := by decide

theorem isIFS_dquote : isIFS dquote = false := by decide

theorem squote_ne_dquote : squote ≠ dquote := by decide

theorem squote_ne_bslash : squote ≠ bslash := by decide

theorem dquote_ne_squote : dquote ≠ squote := by decide

theorem dquote_ne_bslash : dquote ≠ bslash := by decide

theorem shLex_norm_IFS (c : Char) (h : isIFS c = true) (rest acc : List Char)
    (st : Bool) :
    shLex (c :: rest) ShMode.norm acc st
      = (shLex rest ShMode.norm [] false).map
          (fun ws => if st then String.mk acc.reverse :: ws else ws) := by
  simp [shLex, h]

theorem shLex_norm_squote (rest acc : List Char) (st : Bool) :
    shLex (squote :: rest) ShMode.norm acc st
      = shLex rest ShMode.single acc true := by
  simp [shLex, isIFS_squote]

theorem shLex_norm_dquote (rest acc : List Char) (st : Bool) :
    shLex (dquote :: rest) ShMode.norm acc st
      = shLex rest ShMode.double acc true := by
  simp [shLex, isIFS_dquote, dquote_ne_squote]

theorem shLex_norm_ord (c : Char) (h1 : isIFS c = false) (h2 : c ≠ squote)
    (h3 : c ≠ dquote) (h4 : c ≠ bslash) (rest acc : List Char) (st : Bool) :
    shLex (c :: rest) ShMode.norm acc st
      = shLex rest ShMode.norm (c :: acc) true := by
  simp [shLex, h1, h2, h3, h4]

theorem shLex_single_squote (rest acc : List Char) (st : Bool) :
    shLex (squote :: rest) ShMode.single acc st
      = shLex rest ShMode.norm acc st := by
  simp [shLex]

theorem shLex_single_ord (c : Char) (h : c ≠ squote) (rest acc : List Char)
    (st : Bool) :
    shLex (c :: rest) ShMode.single acc st
      = shLex rest ShMode.single (c :: acc) st := by
  simp [shLex, h]

theorem shLex_double_dquote (rest acc : List Char) (st : Bool) :
    shLex (dquote :: rest) ShMode.double acc st
      = shLex rest ShMode.norm acc st := by
  simp [shLex]

theorem shLex_double_ord (c : Char) (h1 : c ≠ dquote) (h2 : c ≠ bslash)
    (rest acc : List Char) (st : Bool) :
    shLex (c :: rest) ShMode.double acc st
      = shLex rest ShMode.double (c :: acc) st := by
  simp [shLex, h1, h2]

theorem String_mk_data (s : String) : String.mk s.data = s := rfl

theorem safechar_props : ∀ c ∈ pipes.safechars,
    isIFS c = false ∧ c ≠ squote ∧ c ≠ dquote ∧ c ≠ bslash := by decide

theorem shLex_safe_run (a : List Char) :
    (∀ c ∈ a, c ∈ pipes.safechars) →
    ∀ rest acc st, shLex (a ++ rest) ShMode.norm acc st
      = shLex rest ShMode.norm (a.reverse ++ acc) (st || !a.isEmpty) := by
  induction a with
  | nil => intro _ rest acc st; simp
  | cons c a' ih =>
    intro ha rest acc st
    obtain ⟨h1, h2, h3, h4⟩ := safechar_props c (ha c (by simp))
    have ih' := ih (fun x hx => ha x (by simp [hx])) rest (c :: acc) true
    calc shLex ((c :: a') ++ rest) ShMode.norm acc st
        = shLex (a' ++ rest) ShMode.norm (c :: acc) true := by
          rw [List.cons_append, shLex_norm_ord c h1 h2 h3 h4]
      _ = shLex rest ShMode.norm (a'.reverse ++ (c :: acc))
            (true || !a'.isEmpty) := ih'
      _ = shLex rest ShMode.norm ((c :: a').reverse ++ acc)
            (st || !(c :: a').isEmpty) := by
          simp [List.reverse_cons, List.append_assoc]

theorem shLex_single_esc (cs : List Char) :
    ∀ acc rest,
      shLex (pipes.escBody cs ++ squote :: rest) ShMode.single acc true
        = shLex rest ShMode.norm (cs.reverse ++ acc) true := by
  induction cs with
  | nil =>
    intro acc rest
    simp [pipes.escBody, shLex_single_squote]
  | cons c cs' ih =>
    intro acc rest
    by_cases hc : c = squote
    · subst hc
      calc shLex (pipes.escBody (squote :: cs') ++ squote :: rest)
            ShMode.single acc true
          = shLex (squote :: dquote :: squote :: dquote :: squote ::
              (pipes.escBody cs' ++ squote :: rest)) ShMode.single acc
              true := by
            simp [pipes.escBody, pipes.escQuote]
        _ = shLex (dquote :: squote :: dquote :: squote ::
              (pipes.escBody cs' ++ squote :: rest)) ShMode.norm acc
              true := shLex_single_squote _ _ _
        _ = shLex (squote :: dquote :: squote ::
              (pipes.escBody cs' ++ squote :: rest)) ShMode.double acc
              true := shLex_norm_dquote _ _ _
        _ = shLex (dquote :: squote ::
              (pipes.escBody cs' ++ squote :: rest)) ShMode.double
              (squote :: acc) true :=
            shLex_double_ord squote squote_ne_dquote squote_ne_bslash _ _ _
        _ = shLex (squote :: (pipes.escBody cs' ++ squote :: rest))
              ShMode.norm (squote :: acc) true := shLex_double_dquote _ _ _
        _ = shLex (pipes.escBody cs' ++ squote :: rest) ShMode.single
              (squote :: acc) true := shLex_norm_squote _ _ _
        _ = shLex rest ShMode.norm (cs'.reverse ++ (squote :: acc)) true :=
            ih (squote :: acc) rest
        _ = shLex rest ShMode.norm ((squote :: cs').reverse ++ acc) true := by
            simp [List.reverse_cons, List.append_assoc]
    · calc shLex (pipes.escBody (c :: cs') ++ squote :: rest)
            ShMode.single acc true
          = shLex (c :: (pipes.escBody cs' ++ squote :: rest))
              ShMode.single acc true := by
            simp [pipes.escBody, pipes.escQuote, hc]
        _ = shLex (pipes.escBody cs' ++ squote :: rest) ShMode.single
              (c :: acc) true := shLex_single_ord c hc _ _ _
        _ = shLex rest ShMode.norm (cs'.reverse ++ (c :: acc)) true :=
            ih (c :: acc) rest
        _ = shLex rest ShMode.norm ((c :: cs').reverse ++ acc) true := by
            simp [List.reverse_cons, List.append_assoc]

theorem shLex_quote_word (s : String) (rest : List Char) :
    shLex ((pipes.quote s).data ++ rest) ShMode.norm [] false
      = shLex rest ShMode.norm s.data.reverse true := by
  by_cases hs : s = ""
  · subst hs
    have h1 : (pipes.quote "").data ++ rest = squote :: squote :: rest := by
      simp [pipes.quote]
    rw [h1, shLex_norm_squote, shLex_single_squote]
    rfl
  · by_cases hsafe : s.data.all (fun c => c ∈ pipes.safechars)
    · have hq : pipes.quote s = s := by
        simp [pipes.quote, hs, hsafe]
      have hne : s.data ≠ [] := fun h => hs (String.ext h)
      have hemp : s.data.isEmpty = false := by
        cases hd : s.data with
        | nil => exact absurd hd hne
        | cons x xs => rfl
      have hrun := shLex_safe_run s.data
        (fun c hc => of_decide_eq_true (List.all_eq_true.mp hsafe c hc))
        rest [] false
      rw [hq, hrun]
      simp [hemp]
    · have hq : (pipes.quote s).data
          = squote :: (pipes.escBody s.data ++ [squote]) := by
        simp [pipes.quote, hs, hsafe]
      have h2 : (squote :: (pipes.escBody s.data ++ [squote])) ++ rest
          = squote :: (pipes.escBody s.data ++ squote :: rest) := by
        simp [List.append_assoc]
      rw [hq, h2, shLex_norm_squote, shLex_single_esc s.data [] rest]
      simp

theorem shLex_joinSp (args : List String) :
    args ≠ [] →
    shLex (joinSp (args.map pipes.quote)).data ShMode.norm [] false
      = some args := by
  induction args with
  | nil => intro h; cases h rfl
  | cons a args' ih =>
    intro _
    cases args' with
    | nil =>
      have hj : joinSp ([a].map pipes.quote) = pipes.quote a := rfl
      rw [hj, (List.append_nil (pipes.quote a).data).symm,
        shLex_quote_word a []]
      simp [shLex, String_mk_data]
    | cons b args'' =>
      have hdata : (joinSp ((a :: b :: args'').map pipes.quote)).data
          = (pipes.quote a).data
            ++ (' ' :: (joinSp ((b :: args'').map pipes.quote)).data) := by
        simp [joinSp, String.data_append]
      have hIFS : isIFS ' ' = true := by decide
      rw [hdata, shLex_quote_word a _,
        shLex_norm_IFS ' ' hIFS _ _ _, ih (by simp)]
      simp [String_mk_data]

/-- C4: POSIX quoting round-trip: joining the individually `pipes.quote`-d
elements of any non-empty command line with single spaces produces a string
that POSIX word-splitting and quote removal parse back to exactly the
original argument sequence. -/
theorem C4_posix_quote_roundtrip (args : List String) (h : args ≠ []) :
    posixSplit (joinSp (args.map pipes.quote)) = some args :=
  shLex_joinSp args h

/-- Witness for C4 on a command line with blanks, an embedded single quote,
an empty argument and shell metacharacters. -/
theorem C4_posix_quote_roundtrip_witness :
    posixSplit (joinSp
      (["echo", "a b", String.mk [Char.ofNat 105, squote, Char.ofNat 115],
        "", "$HOME;x"].map pipes.quote))
      = some ["echo", "a b",
          String.mk [Char.ofNat 105, squote, Char.ofNat 115], "",
          "$HOME;x"] :=
  C4_posix_quote_roundtrip
    ["echo", "a b", String.mk [Char.ofNat 105, squote, Char.ofNat 115],
     "", "$HOME;x"] (by decide)
